import Mathlib

/-!
# Verification of the task-tracking repository core

A shallow embedding of the personal task-tracking application:
the `Task` entity model (src/unnamed/part_001), the task and user
repositories with their TTL caches (src/src/repositories/), and the
controller authorization gate (src/src/controllers/TaskController.js).

Modelling conventions:
* JavaScript timestamps (`Date` values, `Date.now()`) are `Nat`
  milliseconds since the epoch; the "current time" is threaded as an
  explicit `now` parameter.
* `null`/`undefvined` is `Option`; the JavaScript `x || d` idiom on
  strings (empty string falsy) is `jsOrStr`.
* Thrown exceptions are `Except Err`; the repository/service/controller
  layers re-raise after logging, so logging is not modelled.
* Stateful code (storage and per-id caches) is explicit state passing:
  each operation returns the updated state beside its `Except` result,
  mirroring the fact that in the source, mutations performed before a
  throw persist.
* The persistence collaborator (`storage.load`/`storage.save`) is a
  stored list of plain records together with load/save call counters.
* Id generation (`Date.now()` plus a random suffix) is modelled as a
  deterministic function of `now`; no claim depends on id randomness.
-/

namespace Todo

/-- Error taxonomy of the system (§7 of the spec): all `Task`/repository
validation throws collapse to `validation`; duplicate id/username/email
collisions to `duplicate`; the controller authorization failure to
`permission`. -/
inductive Err where
  | validation
  | duplicate
  | permission
  deriving Repr, DecidableEq, Inhabited

instance {ε α : Type} [DecidableEq ε] [DecidableEq α] :
    DecidableEq (Except ε α) := fun x y =>
  match x, y with
  | .ok a, .ok b =>
    if h : a = b then isTrue (by rw [h])
    else isFalse (by intro hh; injection hh; contradiction)
  | .error a, .error b =>
    if h : a = b then isTrue (by rw [h])
    else isFalse (by intro hh; injection hh; contradiction)
  | .ok _, .error _ => isFalse (by intro hh; exact Except.noConfusion hh)
  | .error _, .ok _ => isFalse (by intro hh; exact Except.noConfusion hh)

/-- A note attached to a task (`addNote` creates `{id, content, author,
createdAt}` objects). -/
structure Note where
  id : String
  content : String
  author : Option String
  createdAt : Nat
  deriving Repr, DecidableEq, Inhabited

/-- The `Task` entity (class `Task`, src/unnamed/part_001).  Fields are the
underscore-prefixed instance properties; `Date` fields are epoch
milliseconds and optional fields are `Option`. -/
structure Task where
  id : String
  createdAt : Nat
  title : String
  description : String
  priority : String
  completed : Bool
  updatedAt : Nat
  userId : String
  assignedTo : String
  category : String
  tags : List String
  dueDate : Option Nat
  estimatedHours : Option Int
  actualHours : Option Int
  status : String
  completedAt : Option Nat
  notes : List Note
  attachments : List String
  dependencies : List String
  deriving Repr, DecidableEq, Inhabited

/-- The `options` argument of the `Task` constructor.  `completed` is cast
with `Boolean(...)`, so it is a plain `Bool` (default `false`); every
other entry may be absent. -/
structure TaskOptions where
  id : Option String := none
  createdAt : Option Nat := none
  priority : Option String := none
  completed : Bool := false
  updatedAt : Option Nat := none
  assignedTo : Option String := none
  category : Option String := none
  tags : Option (List String) := none
  dueDate : Option Nat := none
  estimatedHours : Option Int := none
  actualHours : Option Int := none
  status : Option String := none
  completedAt : Option Nat := none
  notes : Option (List Note) := none
  attachments : Option (List String) := none
  dependencies : Option (List String) := none
  deriving Repr, Inhabited

/-- The JavaScript `x || d` idiom for an optional string: `null`,
`undefvined` and the empty string are falsy. -/
def jsOrStr (o : Option String) (d : String) : String :=
  match o with
  | some s => if s = "" then d else s
  | none => d

/-- Model of `String.prototype.trim()`: strips leading and trailing
whitespace.  (Implemented structurally over the character list so that
concrete instances evaluate inside the kernel.) -/
def jsTrim (s : String) : String :=
  ⟨(((s.data.dropWhile Char.isWhitespace).reverse.dropWhile
      Char.isWhitespace).reverse)⟩

/-- Model of `String.prototype.toLowerCase()` (ASCII-faithful). -/
def jsToLower (s : String) : String :=
  ⟨s.data.map Char.toLower⟩

/-- Model of the JavaScript `<` comparison on strings: lexicographic by
code unit.  (Implemented structurally so concrete instances evaluate.) -/
def charListLt : List Char → List Char → Bool
  | [], [] => false
  | [], _ :: _ => true
  | _ :: _, [] => false
  | a :: as1, b :: bs =>
    if a < b then true else if b < a then false else charListLt as1 bs

def jsStrLt (a b : String) : Bool := charListLt a.data b.data

/-- `_validatePriority`: membership in the fixed list, returned unchanged. -/
def validPriorities : List String := ["low", "medium", "high", "urgent"]

def validatePriority (priority : String) : Except Err String :=
  if validPriorities.contains priority then .ok priority else .error .validation

/-- `_validateStatus`: membership in the fixed list, returned unchanged. -/
def validStatuses : List String :=
  ["pending", "in-progress", "blocked", "completed", "cancelled"]

def validateStatus (status : String) : Except Err String :=
  if validStatuses.contains status then .ok status else .error .validation

/-- `_validateCategory`: rejects the empty string, otherwise returns
`category.trim().toLowerCase()`. -/
def validateCategory (category : String) : Except Err String :=
  if category = "" then .error .validation else .ok (jsToLower (jsTrim category))

/-- Tag normalization used by `_validateTags`, `addTag`, `removeTag` and
`hasTag`: `tag.trim().toLowerCase()`. -/
def normalizeTag (tag : String) : String := jsToLower (jsTrim tag)

/-- `_validateTags`: maps normalization over the array.  (The source also
throws when an element is not a string; with typed lists that case is
unrepresentable.)  Note: no deduplication is performed. -/
def validateTags (tags : List String) : List String :=
  tags.map normalizeTag

/-- `_validateHours`: `null` passes through, a negative number throws. -/
def validateHours (hours : Option Int) : Except Err (Option Int) :=
  match hours with
  | none => .ok none
  | some n => if n < 0 then .error .validation else .ok (some n)

/-- `_generateId` (`'task_' + Date.now() + '_' + randomSuffix`); the random
suffix is abstracted away, no claim depends on it. -/
def generateId (now : Nat) : String := "task_" ++ toString now ++ "_x"

/-- The `Task` constructor.  `title`, `description`, `userId` are the
positional parameters (`description` may be `null`); `freshId` stands for
the id `_generateId` would produce and `now` for `new Date()`. -/
def Task.new (title : String) (description : Option String) (userId : String)
    (opts : TaskOptions) (freshId : String) (now : Nat) : Except Err Task := do
  if jsTrim title = "" then throw .validation
  else if userId = "" then throw .validation
  else
    let pr ← validatePriority (jsOrStr opts.priority "medium")
    let cat ← validateCategory (jsOrStr opts.category "general")
    let tg := validateTags (opts.tags.getD [])
    let eh ← validateHours opts.estimatedHours
    let ah ← validateHours opts.actualHours
    let st ← validateStatus (jsOrStr opts.status "pending")
    pure {
      id := jsOrStr opts.id freshId
      createdAt := opts.createdAt.getD now
      title := jsTrim title
      description := jsTrim (description.getD "")
      priority := pr
      completed := opts.completed
      updatedAt := opts.updatedAt.getD now
      userId := userId
      assignedTo := jsOrStr opts.assignedTo userId
      category := cat
      tags := tg
      dueDate := opts.dueDate
      estimatedHours := eh
      actualHours := ah
      status := st
      completedAt := opts.completedAt
      notes := opts.notes.getD []
      attachments := opts.attachments.getD []
      dependencies := opts.dependencies.getD [] }

/-- Computed getter `isOverdue`: false when no due date or completed,
otherwise `new Date() > dueDate`. -/
def Task.isOverdue (t : Task) (now : Nat) : Bool :=
  match t.dueDate with
  | none => false
  | some d => if t.completed then false else decide (d < now)

/-- `markComplete`: no-op when already completed, otherwise sets the
completion flag, status, `completedAt` and bumps `updatedAt`. -/
def Task.markComplete (t : Task) (now : Nat) : Task :=
  if t.completed then t
  else { t with completed := true, status := "completed",
                completedAt := some now, updatedAt := now }

/-- `markIncomplete`: no-op when not completed, otherwise clears the flag,
resets status to `pending` and clears `completedAt`. -/
def Task.markIncomplete (t : Task) (now : Nat) : Task :=
  if t.completed then
    { t with completed := false, status := "pending",
             completedAt := none, updatedAt := now }
  else t

/-- `setStatus`: validates and writes the status, then auto-updates the
completion flag through `markComplete`/`markIncomplete`. -/
def Task.setStatus (t : Task) (status : String) (now : Nat) : Except Err Task :=
  match validateStatus status with
  | .error e => .error e
  | .ok st =>
    if status = "completed" ∧ t.completed = false then
      .ok (Task.markComplete { t with status := st } now)
    else if status ≠ "completed" ∧ t.completed = true then
      .ok (Task.markIncomplete { t with status := st } now)
    else
      .ok { t with status := st }

/-- `updateTitle`: rejects empty/whitespace titles, stores the trimmed
title. -/
def Task.updateTitle (t : Task) (newTitle : String) (now : Nat) : Except Err Task :=
  if jsTrim newTitle = "" then .error .validation
  else .ok { t with title := jsTrim newTitle, updatedAt := now }

/-- `updateDescription`: stores the trimmed description ("" for falsy). -/
def Task.updateDescription (t : Task) (d : String) (now : Nat) : Task :=
  { t with description := jsTrim d, updatedAt := now }

/-- `updatePriority`. -/
def Task.updatePriority (t : Task) (p : String) (now : Nat) : Except Err Task :=
  match validatePriority p with
  | .error e => .error e
  | .ok pr => .ok { t with priority := pr, updatedAt := now }

/-- `setCategory`. -/
def Task.setCategory (t : Task) (c : String) (now : Nat) : Except Err Task :=
  match validateCategory c with
  | .error e => .error e
  | .ok cat => .ok { t with category := cat, updatedAt := now }

/-- `setDueDate` (invalid-date strings are unrepresentable with `Nat`
timestamps, so the model is total). -/
def Task.setDueDate (t : Task) (d : Option Nat) (now : Nat) : Task :=
  { t with dueDate := d, updatedAt := now }

/-- `setEstimatedHours`. -/
def Task.setEstimatedHours (t : Task) (hours : Option Int) (now : Nat) :
    Except Err Task :=
  match validateHours hours with
  | .error e => .error e
  | .ok v => .ok { t with estimatedHours := v, updatedAt := now }

/-- `setActualHours`. -/
def Task.setActualHours (t : Task) (hours : Option Int) (now : Nat) :
    Except Err Task :=
  match validateHours hours with
  | .error e => .error e
  | .ok v => .ok { t with actualHours := v, updatedAt := now }

/-- `addTag`: rejects the empty string, normalizes, appends only when
absent (deduplicating insertion). -/
def Task.addTag (t : Task) (tag : String) (now : Nat) : Except Err Task :=
  if tag = "" then .error .validation
  else if t.tags.contains (normalizeTag tag) then .ok t
  else .ok { t with tags := t.tags ++ [normalizeTag tag], updatedAt := now }

/-- `removeTag`: removes the first occurrence of the normalized tag, if
present. -/
def Task.removeTag (t : Task) (tag : String) (now : Nat) : Task :=
  if t.tags.contains (normalizeTag tag) then
    { t with tags := t.tags.erase (normalizeTag tag), updatedAt := now }
  else t

/-- `clearTags`. -/
def Task.clearTags (t : Task) (now : Nat) : Task :=
  { t with tags := [], updatedAt := now }

/-- `addDependency`: rejects the empty string and self-dependency, appends
only when absent. -/
def Task.addDependency (t : Task) (taskId : String) (now : Nat) : Except Err Task :=
  if taskId = "" then .error .validation
  else if taskId = t.id then .error .validation
  else if t.dependencies.contains taskId then .ok t
  else .ok { t with dependencies := t.dependencies ++ [taskId], updatedAt := now }

/-- `removeDependency`: removes the first occurrence, if present. -/
def Task.removeDependency (t : Task) (taskId : String) (now : Nat) : Task :=
  if t.dependencies.contains taskId then
    { t with dependencies := t.dependencies.erase taskId, updatedAt := now }
  else t

/-- The persisted record shape produced by `toJSON` (§6 of the spec);
ISO date strings are identified with their epoch-millisecond value. -/
structure TaskJSON where
  id : String
  title : String
  description : String
  userId : String
  assignedTo : String
  priority : String
  category : String
  tags : List String
  completed : Bool
  status : String
  dueDate : Option Nat
  estimatedHours : Option Int
  actualHours : Option Int
  notes : List Note
  attachments : List String
  dependencies : List String
  createdAt : Nat
  updatedAt : Nat
  completedAt : Option Nat
  deriving Repr, DecidableEq, Inhabited

/-- `toJSON`: a plain field-by-field export. -/
def Task.toJSON (t : Task) : TaskJSON :=
  { id := t.id, title := t.title, description := t.description,
    userId := t.userId, assignedTo := t.assignedTo, priority := t.priority,
    category := t.category, tags := t.tags, completed := t.completed,
    status := t.status, dueDate := t.dueDate,
    estimatedHours := t.estimatedHours, actualHours := t.actualHours,
    notes := t.notes, attachments := t.attachments,
    dependencies := t.dependencies, createdAt := t.createdAt,
    updatedAt := t.updatedAt, completedAt := t.completedAt }

/-- `Task.fromJSON`: re-runs the constructor on the persisted record. -/
def Task.fromJSON (data : TaskJSON) (freshId : String) (now : Nat) :
    Except Err Task :=
  Task.new data.title (some data.description) data.userId
    { id := some data.id
      assignedTo := some data.assignedTo
      priority := some data.priority
      category := some data.category
      tags := some data.tags
      completed := data.completed
      status := some data.status
      dueDate := data.dueDate
      estimatedHours := data.estimatedHours
      actualHours := data.actualHours
      notes := some data.notes
      attachments := some data.attachments
      dependencies := some data.dependencies
      createdAt := some data.createdAt
      updatedAt := some data.updatedAt
      completedAt := data.completedAt } freshId now

/-- One entry of the `updates` object passed to `TaskRepository.update`.
The constructor for each field records the source's dispatch outcome:
a `setX`/`updateX` mutator when the `Task` class defines one, otherwise
the direct `_field = value` fallback assignment (which skips validation
and does not touch `updatedAt`).  `completed`, `assignedTo`, `tags`,
`dependencies`, `notes`, `attachments` and `completedAt` have no matching
mutator and fall back to direct assignment. -/
inductive FieldUpdate where
  | title (v : String)
  | description (v : String)
  | priority (v : String)
  | completed (v : Bool)
  | status (v : String)
  | category (v : String)
  | dueDate (v : Option Nat)
  | estimatedHours (v : Option Int)
  | actualHours (v : Option Int)
  | assignedTo (v : String)
  | tags (v : List String)
  | dependencies (v : List String)
  | notes (v : List Note)
  | attachments (v : List String)
  | completedAt (v : Option Nat)
  deriving Repr, DecidableEq

/-- The per-key dispatch of `TaskRepository.update` (setter method if
present, else `updateX` method, else direct property write). -/
def Task.applyUpdate (t : Task) (u : FieldUpdate) (now : Nat) : Except Err Task :=
  match u with
  | .title v => t.updateTitle v now
  | .description v => .ok (t.updateDescription v now)
  | .priority v => t.updatePriority v now
  | .completed v => .ok { t with completed := v }
  | .status v => t.setStatus v now
  | .category v => t.setCategory v now
  | .dueDate v => .ok (t.setDueDate v now)
  | .estimatedHours v => t.setEstimatedHours v now
  | .actualHours v => t.setActualHours v now
  | .assignedTo v => .ok { t with assignedTo := v }
  | .tags v => .ok { t with tags := v }
  | .dependencies v => .ok { t with dependencies := v }
  | .notes v => .ok { t with notes := v }
  | .attachments v => .ok { t with attachments := v }
  | .completedAt v => .ok { t with completedAt := v }

/-- The `Object.keys(updates).forEach` loop of `TaskRepository.update`:
updates applied left to right, the first thrown error propagating. -/
def Task.applyUpdates (t : Task) (us : List FieldUpdate) (now : Nat) :
    Except Err Task :=
  us.foldlM (fun acc u => acc.applyUpdate u now) t

/-! ### Helper lemmas about the validators -/

theorem exceptOkBind {α β : Type} (a : α) (f : α → Except Err β) :
    (Except.ok a >>= f) = f a := rfl

theorem exceptErrorBind {α β : Type} (e : Err) (f : α → Except Err β) :
    ((Except.error e : Except Err α) >>= f) = .error e := rfl

theorem validatePriority_ok {p q : String} (h : validatePriority p = .ok q) :
    q = p := by
  unfold validatePriority at h
  split at h
  · exact (Except.ok.injEq _ _).mp h |>.symm
  · exact absurd h (by simp)

theorem validateStatus_ok {p q : String} (h : validateStatus p = .ok q) :
    q = p := by
  unfold validateStatus at h
  split at h
  · exact (Except.ok.injEq _ _).mp h |>.symm
  · exact absurd h (by simp)

theorem validatePriority_of_mem {p : String} (h : p ∈ validPriorities) :
    validatePriority p = .ok p := by
  unfold validatePriority
  rw [if_pos]
  exact List.elem_eq_true_of_mem h

theorem validateStatus_of_mem {p : String} (h : p ∈ validStatuses) :
    validateStatus p = .ok p := by
  unfold validateStatus
  rw [if_pos]
  exact List.elem_eq_true_of_mem h

theorem validPriorities_ne_empty : ∀ p ∈ validPriorities, p ≠ "" := by decide

theorem validStatuses_ne_empty : ∀ p ∈ validStatuses, p ≠ "" := by decide

theorem jsOrStr_some {s : String} (h : s ≠ "") (d : String) :
    jsOrStr (some s) d = s := by
  simp [jsOrStr, h]

theorem validateHours_of_nonneg {ho : Option Int}
    (h : ∀ n, ho = some n → 0 ≤ n) : validateHours ho = .ok ho := by
  cases ho with
  | none => rfl
  | some n =>
    have hn : ¬ n < 0 := by simpa using h n rfl
    simp [validateHours, hn]

theorem list_map_fix {α : Type} {l : List α} {f : α → α}
    (h : ∀ x ∈ l, f x = x) : l.map f = l := by
  induction l with
  | nil => rfl
  | cons a l ih =>
    simp only [List.map_cons, h a (by simp)]
    rw [ih fun x hx => h x (by simp [hx])]

/-! ### The `completed ⇔ status = 'completed'` invariant -/

/-- The spec's derived-state invariant: `completed = true ⇔
status = 'completed'`. -/
def completedStatusInv (t : Task) : Prop :=
  t.completed = true ↔ t.status = "completed"

theorem markComplete_inv {t : Task} (now : Nat) (h : completedStatusInv t) :
    completedStatusInv (t.markComplete now) := by
  unfold Task.markComplete
  split
  · exact h
  · simp [completedStatusInv]

theorem markIncomplete_inv {t : Task} (now : Nat) (h : completedStatusInv t) :
    completedStatusInv (t.markIncomplete now) := by
  unfold Task.markIncomplete
  split
  · simp [completedStatusInv]
  · exact h

theorem setStatus_inv {t : Task} {s : String} {now : Nat} {t2 : Task}
    (h : t.setStatus s now = .ok t2) : completedStatusInv t2 := by
  rw [Task.setStatus] at h
  split at h
  · exact absurd h (by simp)
  · rename_i st hst
    have hs : st = s := validateStatus_ok hst
    rw [hs] at h
    split at h
    · rename_i hcond
      obtain ⟨hse, hcf⟩ := hcond
      obtain rfl : Task.markComplete { t with status := s } now = t2 := by
        simpa using h
      simp only [Task.markComplete]
      rw [if_neg (by simp [hcf])]
      simp [completedStatusInv]
    · split at h
      · rename_i hcond
        obtain ⟨hsne, hct⟩ := hcond
        obtain rfl : Task.markIncomplete { t with status := s } now = t2 := by
          simpa using h
        simp only [Task.markIncomplete]
        rw [if_pos (by simp [hct])]
        simp [completedStatusInv]
      · rename_i hnot1 hnot2
        obtain rfl : ({ t with status := s } : Task) = t2 := by simpa using h
        cases hc : t.completed with
        | true =>
          have hsc : s = "completed" := by
            by_contra hne
            exact hnot2 ⟨hne, hc⟩
          simp [completedStatusInv, hc, hsc]
        | false =>
          have hsc : s ≠ "completed" := by
            intro hse
            exact hnot1 ⟨hse, hc⟩
          simp [completedStatusInv, hc, hsc]

theorem applyUpdate_inv {t : Task} {u : FieldUpdate} {now : Nat} {t2 : Task}
    (hinv : completedStatusInv t) (hnc : ∀ v, u ≠ .completed v)
    (h : t.applyUpdate u now = .ok t2) : completedStatusInv t2 := by
  cases u with
  | title v =>
    simp only [Task.applyUpdate, Task.updateTitle] at h
    split at h
    · exact absurd h (by simp)
    · obtain rfl : _ = t2 := (Except.ok.injEq _ _).mp h
      exact hinv
  | description v =>
    obtain rfl : _ = t2 := by
      simpa [Task.applyUpdate, Task.updateDescription] using h
    exact hinv
  | priority v =>
    simp only [Task.applyUpdate, Task.updatePriority] at h
    split at h
    · exact absurd h (by simp)
    · obtain rfl : _ = t2 := (Except.ok.injEq _ _).mp h
      exact hinv
  | completed v => exact absurd rfl (hnc v)
  | status v =>
    simp only [Task.applyUpdate] at h
    exact setStatus_inv h
  | category v =>
    simp only [Task.applyUpdate, Task.setCategory] at h
    split at h
    · exact absurd h (by simp)
    · obtain rfl : _ = t2 := (Except.ok.injEq _ _).mp h
      exact hinv
  | dueDate v =>
    obtain rfl : _ = t2 := by
      simpa [Task.applyUpdate, Task.setDueDate] using h
    exact hinv
  | estimatedHours v =>
    simp only [Task.applyUpdate, Task.setEstimatedHours] at h
    split at h
    · exact absurd h (by simp)
    · obtain rfl : _ = t2 := (Except.ok.injEq _ _).mp h
      exact hinv
  | actualHours v =>
    simp only [Task.applyUpdate, Task.setActualHours] at h
    split at h
    · exact absurd h (by simp)
    · obtain rfl : _ = t2 := (Except.ok.injEq _ _).mp h
      exact hinv
  | assignedTo v =>
    obtain rfl : _ = t2 := by simpa [Task.applyUpdate] using h
    exact hinv
  | tags v =>
    obtain rfl : _ = t2 := by simpa [Task.applyUpdate] using h
    exact hinv
  | dependencies v =>
    obtain rfl : _ = t2 := by simpa [Task.applyUpdate] using h
    exact hinv
  | notes v =>
    obtain rfl : _ = t2 := by simpa [Task.applyUpdate] using h
    exact hinv
  | attachments v =>
    obtain rfl : _ = t2 := by simpa [Task.applyUpdate] using h
    exact hinv
  | completedAt v =>
    obtain rfl : _ = t2 := by simpa [Task.applyUpdate] using h
    exact hinv

theorem applyUpdates_inv {t : Task} {us : List FieldUpdate} {now : Nat}
    {t2 : Task} (hinv : completedStatusInv t)
    (hnc : ∀ v, FieldUpdate.completed v ∉ us)
    (h : t.applyUpdates us now = .ok t2) : completedStatusInv t2 := by
  induction us generalizing t with
  | nil =>
    obtain rfl : t = t2 := by
      simpa [Task.applyUpdates, List.foldlM, pure, Except.pure] using h
    exact hinv
  | cons u us ih =>
    rw [Task.applyUpdates, List.foldlM_cons] at h
    cases hu : t.applyUpdate u now with
    | error e => rw [hu] at h; exact absurd h (by simp [exceptErrorBind])
    | ok tmid =>
      rw [hu, exceptOkBind] at h
      have hmid : completedStatusInv tmid :=
        applyUpdate_inv hinv (fun v hv => hnc v (by simp [hv])) hu
      exact ih hmid (fun v hv => hnc v (by simp [hv])) h

theorem new_inv {title : String} {descr : Option String} {uid : String}
    {opts : TaskOptions} {freshId : String} {now : Nat} {t2 : Task}
    (hcs : opts.completed = true ↔ jsOrStr opts.status "pending" = "completed")
    (h : Task.new title descr uid opts freshId now = .ok t2) :
    completedStatusInv t2 := by
  rw [Task.new] at h
  split at h
  · exact Except.noConfusion h
  · split at h
    · exact Except.noConfusion h
    · cases hp : validatePriority (jsOrStr opts.priority "medium") with
      | error e => rw [hp, exceptErrorBind] at h; exact Except.noConfusion h
      | ok pr =>
        rw [hp, exceptOkBind] at h
        cases hc : validateCategory (jsOrStr opts.category "general") with
        | error e => rw [hc, exceptErrorBind] at h; exact Except.noConfusion h
        | ok cat =>
          rw [hc, exceptOkBind] at h
          cases he : validateHours opts.estimatedHours with
          | error e => rw [he, exceptErrorBind] at h; exact Except.noConfusion h
          | ok eh =>
            rw [he, exceptOkBind] at h
            cases ha : validateHours opts.actualHours with
            | error e => rw [ha, exceptErrorBind] at h; exact Except.noConfusion h
            | ok ah =>
              rw [ha, exceptOkBind] at h
              cases hs : validateStatus (jsOrStr opts.status "pending") with
              | error e => rw [hs, exceptErrorBind] at h; exact Except.noConfusion h
              | ok st =>
                rw [hs, exceptOkBind] at h
                obtain rfl : _ = t2 := (Except.ok.injEq _ _).mp h
                have hst : st = jsOrStr opts.status "pending" := validateStatus_ok hs
                simpa [completedStatusInv, hst] using hcs

/-- C1: the `completed = true ⇔ status = 'completed'` invariant, as it
actually holds on the code: it is preserved by `markComplete` and
`markIncomplete`, (re-)established by `setStatus`, established by the
constructor whenever the supplied `completed` flag agrees with the
supplied `status`, and preserved by repository `update` field sets that do
not contain a direct `completed` assignment.  (The unrestricted claim is
false: see the counterexample.) -/
theorem c1_invariant_amended :
    (∀ (t : Task) (now : Nat),
        completedStatusInv t → completedStatusInv (t.markComplete now)) ∧
    (∀ (t : Task) (now : Nat),
        completedStatusInv t → completedStatusInv (t.markIncomplete now)) ∧
    (∀ (t : Task) (s : String) (now : Nat) (t2 : Task),
        t.setStatus s now = .ok t2 → completedStatusInv t2) ∧
    (∀ (title : String) (descr : Option String) (uid : String)
        (opts : TaskOptions) (freshId : String) (now : Nat) (t2 : Task),
        (opts.completed = true ↔ jsOrStr opts.status "pending" = "completed") →
        Task.new title descr uid opts freshId now = .ok t2 →
        completedStatusInv t2) ∧
    (∀ (t : Task) (us : List FieldUpdate) (now : Nat) (t2 : Task),
        completedStatusInv t → (∀ v, FieldUpdate.completed v ∉ us) →
        Task.applyUpdates t us now = .ok t2 → completedStatusInv t2) := by
  refine ⟨fun t now h => markComplete_inv now h,
          fun t now h => markIncomplete_inv now h,
          fun t s now t2 h => setStatus_inv h,
          fun title descr uid opts freshId now t2 hcs h => new_inv hcs h,
          fun t us now t2 hinv hnc h => applyUpdates_inv hinv hnc h⟩

/-- A persisted record whose `completed` flag and `status` disagree:
`Task.fromJSON` accepts it unchanged. -/
def c1rec : TaskJSON :=
  { id := "t1", title := "a", description := "", userId := "u1",
    assignedTo := "u1", priority := "medium", category := "general",
    tags := [], completed := true, status := "pending", dueDate := none,
    estimatedHours := none, actualHours := none, notes := [],
    attachments := [], dependencies := [], createdAt := 0, updatedAt := 0,
    completedAt := none }

/-- A consistent pending task used to exhibit the `update({completed: v})`
violation and as the instantiation point of the amended invariant. -/
def pendingTask : Task :=
  { id := "t2", createdAt := 0, title := "b", description := "",
    priority := "medium", completed := false, updatedAt := 0,
    userId := "u1", assignedTo := "u1", category := "general", tags := [],
    dueDate := none, estimatedHours := none, actualHours := none,
    status := "pending", completedAt := none, notes := [],
    attachments := [], dependencies := [] }

/-- C1 counterexample: hydrating a record with `completed = true` and
`status = 'pending'` succeeds and violates the invariant, and the
repository `update` dispatch for the `completed` key (a direct `_completed`
assignment — no `setCompleted`/`updateCompleted` mutator exists) turns a
consistent pending task into a violating one. -/
theorem c1_counterexample :
    (Except.map (fun t => (t.completed, t.status))
        (Task.fromJSON c1rec "g" 0)) = .ok (true, "pending") ∧
    (Except.map (fun t => (t.completed, t.status))
        (pendingTask.applyUpdate (.completed true) 0)) = .ok (true, "pending") := by
  exact ⟨rfl, rfl⟩

theorem c1_witness :
    completedStatusInv (pendingTask.markComplete 5) :=
  c1_invariant_amended.1 pendingTask 5 (by simp [completedStatusInv, pendingTask])

/-! ### Tags and dependencies as deduplicated sets -/

/-- The tags collection is a duplicate-free list of normalized
(trimmed, lowercased) strings. -/
def TagsOk (t : Task) : Prop :=
  t.tags.Nodup ∧ ∀ s ∈ t.tags, ∃ raw, s = normalizeTag raw

/-- The dependencies collection is duplicate-free and never contains the
task's own id. -/
def DepsOk (t : Task) : Prop :=
  t.dependencies.Nodup ∧ t.id ∉ t.dependencies

theorem nodup_append_singleton {α : Type} [DecidableEq α] {l : List α}
    {a : α} (hl : l.Nodup) (ha : a ∉ l) : (l ++ [a]).Nodup := by
  simp [List.nodup_append, hl, ha]

theorem addTag_tagsOk {t : Task} {tag : String} {now : Nat} {t2 : Task}
    (hok : TagsOk t) (h : t.addTag tag now = .ok t2) : TagsOk t2 := by
  rw [Task.addTag] at h
  split at h
  · exact Except.noConfusion h
  · split at h
    · obtain rfl : t = t2 := (Except.ok.injEq _ _).mp h
      exact hok
    · rename_i hmem
      obtain rfl : _ = t2 := (Except.ok.injEq _ _).mp h
      have hnotmem : normalizeTag tag ∉ t.tags := by
        simpa using hmem
      constructor
      · exact nodup_append_singleton hok.1 hnotmem
      · intro s hs
        rcases List.mem_append.mp hs with hs | hs
        · exact hok.2 s hs
        · exact ⟨tag, by simpa using hs⟩

theorem removeTag_tagsOk {t : Task} (tag : String) (now : Nat)
    (hok : TagsOk t) : TagsOk (t.removeTag tag now) := by
  rw [Task.removeTag]
  split
  · exact ⟨hok.1.erase _, fun s hs => hok.2 s (List.mem_of_mem_erase hs)⟩
  · exact hok

theorem clearTags_tagsOk (t : Task) (now : Nat) : TagsOk (t.clearTags now) := by
  refine ⟨List.nodup_nil, fun s hs => absurd hs ?_⟩
  simp [Task.clearTags]

theorem addDependency_depsOk {t : Task} {dep : String} {now : Nat} {t2 : Task}
    (hok : DepsOk t) (h : t.addDependency dep now = .ok t2) : DepsOk t2 := by
  rw [Task.addDependency] at h
  split at h
  · exact Except.noConfusion h
  · split at h
    · exact Except.noConfusion h
    · rename_i hne hself
      split at h
      · obtain rfl : t = t2 := (Except.ok.injEq _ _).mp h
        exact hok
      · rename_i hmem
        obtain rfl : _ = t2 := (Except.ok.injEq _ _).mp h
        have hnotmem : dep ∉ t.dependencies := by simpa using hmem
        refine ⟨nodup_append_singleton hok.1 hnotmem, ?_⟩
        intro hid
        rcases List.mem_append.mp hid with hid | hid
        · exact hok.2 hid
        · have hde : t.id = dep := by simpa using hid
          exact hself hde.symm

theorem removeDependency_depsOk {t : Task} (dep : String) (now : Nat)
    (hok : DepsOk t) : DepsOk (t.removeDependency dep now) := by
  rw [Task.removeDependency]
  split
  · exact ⟨hok.1.erase _, fun hid => hok.2 (List.mem_of_mem_erase hid)⟩
  · exact hok

theorem new_ok_fields {title : String} {descr : Option String} {uid : String}
    {opts : TaskOptions} {freshId : String} {now : Nat} {t2 : Task}
    (h : Task.new title descr uid opts freshId now = .ok t2) :
    t2.tags = validateTags (opts.tags.getD []) ∧
    t2.dependencies = opts.dependencies.getD [] ∧
    t2.id = jsOrStr opts.id freshId := by
  rw [Task.new] at h
  split at h
  · exact Except.noConfusion h
  · split at h
    · exact Except.noConfusion h
    · cases hp : validatePriority (jsOrStr opts.priority "medium") with
      | error e => rw [hp, exceptErrorBind] at h; exact Except.noConfusion h
      | ok pr =>
        rw [hp, exceptOkBind] at h
        cases hc : validateCategory (jsOrStr opts.category "general") with
        | error e => rw [hc, exceptErrorBind] at h; exact Except.noConfusion h
        | ok cat =>
          rw [hc, exceptOkBind] at h
          cases he : validateHours opts.estimatedHours with
          | error e => rw [he, exceptErrorBind] at h; exact Except.noConfusion h
          | ok eh =>
            rw [he, exceptOkBind] at h
            cases ha : validateHours opts.actualHours with
            | error e => rw [ha, exceptErrorBind] at h; exact Except.noConfusion h
            | ok ah =>
              rw [ha, exceptOkBind] at h
              cases hs : validateStatus (jsOrStr opts.status "pending") with
              | error e => rw [hs, exceptErrorBind] at h; exact Except.noConfusion h
              | ok st =>
                rw [hs, exceptOkBind] at h
                obtain rfl : _ = t2 := (Except.ok.injEq _ _).mp h
                exact ⟨rfl, rfl, rfl⟩

/-- C6: how the deduplicated-set discipline actually holds on the code:
every tag/dependency mutator preserves (or establishes) it, and the
constructor yields it exactly when the supplied `options` lists are
already duplicate-free after normalization and do not include the task's
own id — the constructor itself performs no deduplication and no
self-dependency check (see the counterexample). -/
theorem c6_sets_amended :
    (∀ (t : Task) (tag : String) (now : Nat) (t2 : Task),
        TagsOk t → t.addTag tag now = .ok t2 → TagsOk t2) ∧
    (∀ (t : Task) (tag : String) (now : Nat),
        TagsOk t → TagsOk (t.removeTag tag now)) ∧
    (∀ (t : Task) (now : Nat), TagsOk (t.clearTags now)) ∧
    (∀ (t : Task) (dep : String) (now : Nat) (t2 : Task),
        DepsOk t → t.addDependency dep now = .ok t2 → DepsOk t2) ∧
    (∀ (t : Task) (dep : String) (now : Nat),
        DepsOk t → DepsOk (t.removeDependency dep now)) ∧
    (∀ (title : String) (descr : Option String) (uid : String)
        (opts : TaskOptions) (freshId : String) (now : Nat) (t2 : Task),
        Task.new title descr uid opts freshId now = .ok t2 →
        ((opts.tags.getD []).map normalizeTag).Nodup →
        (opts.dependencies.getD []).Nodup →
        t2.id ∉ opts.dependencies.getD [] →
        TagsOk t2 ∧ DepsOk t2) := by
  refine ⟨fun t tag now t2 hok h => addTag_tagsOk hok h,
          fun t tag now hok => removeTag_tagsOk tag now hok,
          fun t now => clearTags_tagsOk t now,
          fun t dep now t2 hok h => addDependency_depsOk hok h,
          fun t dep now hok => removeDependency_depsOk dep now hok,
          fun title descr uid opts freshId now t2 h htags hdeps hid => ?_⟩
  obtain ⟨ht, hd, _⟩ := new_ok_fields h
  refine ⟨⟨?_, ?_⟩, ?_, ?_⟩
  · rw [ht]; exact htags
  · intro s hs
    rw [ht] at hs
    obtain ⟨raw, _, hraw⟩ := List.mem_map.mp hs
    exact ⟨raw, hraw.symm⟩
  · rw [hd]; exact hdeps
  · rw [hd]; exact hid

/-- A persisted record with duplicate tags and a self-referential
dependency list: `Task.fromJSON` accepts it unchanged. -/
def c6rec : TaskJSON :=
  { id := "t1", title := "a", description := "", userId := "u1",
    assignedTo := "u1", priority := "medium", category := "general",
    tags := ["dup", "dup"], completed := false, status := "pending",
    dueDate := none, estimatedHours := none, actualHours := none,
    notes := [], attachments := [], dependencies := ["t1"],
    createdAt := 0, updatedAt := 0, completedAt := none }

def c6task : Task :=
  match Task.fromJSON c6rec "g" 0 with
  | .ok t => t
  | .error _ => default

/-- C6 counterexample: construction via `Task.fromJSON` neither
deduplicates the tags, nor deduplicates the dependencies, nor excludes the
task's own id from them. -/
theorem c6_counterexample :
    Task.fromJSON c6rec "g" 0 = .ok c6task ∧
    c6task.tags = ["dup", "dup"] ∧ ¬ c6task.tags.Nodup ∧
    c6task.id ∈ c6task.dependencies := by
  refine ⟨rfl, rfl, by decide, by decide⟩

def c6seed : Task :=
  { id := "t3", createdAt := 0, title := "c", description := "",
    priority := "medium", completed := false, updatedAt := 0,
    userId := "u1", assignedTo := "u1", category := "general", tags := [],
    dueDate := none, estimatedHours := none, actualHours := none,
    status := "pending", completedAt := none, notes := [],
    attachments := [], dependencies := [] }

def c6added : Task :=
  match c6seed.addTag "NewTag" 5 with
  | .ok t => t
  | .error _ => c6seed

theorem c6_witness : TagsOk c6added :=
  c6_sets_amended.1 c6seed "NewTag" 5 c6added
    ⟨List.nodup_nil, fun s hs => absurd hs (List.not_mem_nil s)⟩ rfl

/-! ### The `isOverdue` derived field -/

/-- C7: `isOverdue` is true iff the due date is set, lies strictly in the
past, and the task is not completed; and after `markComplete` the task is
never overdue (at any observation time). -/
theorem c7_overdue :
    (∀ (t : Task) (now : Nat),
        t.isOverdue now = true ↔
          ((∃ d, t.dueDate = some d ∧ d < now) ∧ t.completed = false)) ∧
    (∀ (t : Task) (now after : Nat),
        (t.markComplete now).isOverdue after = false) := by
  constructor
  · intro t now
    rw [Task.isOverdue]
    cases hd : t.dueDate with
    | none => simp [hd]
    | some d =>
      cases hc : t.completed with
      | true => simp [hc, hd]
      | false => simp [hc, hd]
  · intro t now after
    rw [Task.markComplete]
    split
    · rename_i hc
      rw [Task.isOverdue]
      cases hd : t.dueDate with
      | none => rfl
      | some d => simp [hc]
    · rw [Task.isOverdue]
      cases hd : t.dueDate <;> simp

/-! ### The hydration round-trip -/

/-- The field well-formedness the `Task` class maintains on its own
instances: trimmed non-empty title, trimmed description, normalized
category and tags, enumerated priority and status, non-negative hours,
non-empty identity strings. -/
structure WellFormedTask (t : Task) : Prop where
  id_ne : t.id ≠ ""
  title_trim : jsTrim t.title = t.title
  title_ne : t.title ≠ ""
  description_trim : jsTrim t.description = t.description
  userId_ne : t.userId ≠ ""
  assignedTo_ne : t.assignedTo ≠ ""
  priority_mem : t.priority ∈ validPriorities
  category_ne : t.category ≠ ""
  category_norm : jsToLower (jsTrim t.category) = t.category
  tags_norm : ∀ s ∈ t.tags, normalizeTag s = s
  estimated_nonneg : ∀ n, t.estimatedHours = some n → 0 ≤ n
  actual_nonneg : ∀ n, t.actualHours = some n → 0 ≤ n
  status_mem : t.status ∈ validStatuses

theorem mem_validPriorities_ne {p : String} (h : p ∈ validPriorities) :
    p ≠ "" := validPriorities_ne_empty p h

theorem mem_validStatuses_ne {p : String} (h : p ∈ validStatuses) :
    p ≠ "" := validStatuses_ne_empty p h

/-- C10 (amended): `Task.fromJSON (t.toJSON())` reproduces every field of
a task whose fields are in the normal forms the `Task` validators
maintain, whatever fresh id and clock the hydration runs with.  (For a
task carrying fields injected past the validators — reachable through the
repository `update` direct-assignment fallback — hydration re-normalizes
and the round-trip is not the identity: see the counterexample.) -/
theorem c10_roundtrip :
    ∀ (t : Task) (freshId : String) (now : Nat), WellFormedTask t →
      Task.fromJSON t.toJSON freshId now = .ok t := by
  intro t freshId now wf
  rw [Task.fromJSON, Task.new]
  simp only [Task.toJSON]
  rw [wf.title_trim, if_neg wf.title_ne, if_neg wf.userId_ne,
    jsOrStr_some (mem_validPriorities_ne wf.priority_mem),
    validatePriority_of_mem wf.priority_mem, exceptOkBind,
    jsOrStr_some wf.category_ne]
  rw [show validateCategory t.category = .ok t.category by
    rw [validateCategory, if_neg wf.category_ne, wf.category_norm]]
  rw [exceptOkBind,
    validateHours_of_nonneg wf.estimated_nonneg, exceptOkBind,
    validateHours_of_nonneg wf.actual_nonneg, exceptOkBind,
    jsOrStr_some (mem_validStatuses_ne wf.status_mem),
    validateStatus_of_mem wf.status_mem, exceptOkBind,
    jsOrStr_some wf.id_ne, jsOrStr_some wf.assignedTo_ne]
  simp only [Option.getD_some]
  rw [wf.description_trim,
    show validateTags t.tags = t.tags from list_map_fix wf.tags_norm]
  rfl

/-- A concrete well-formed task for instantiating the round-trip. -/
def wfTask : Task :=
  { id := "a1", createdAt := 10, title := "Write spec", description := "d",
    priority := "high", completed := false, updatedAt := 10,
    userId := "u1", assignedTo := "u1", category := "general",
    tags := ["work"], dueDate := some 99, estimatedHours := some 4,
    actualHours := none, status := "pending", completedAt := none,
    notes := [], attachments := [], dependencies := ["b2"] }

def c10bad : Task :=
  match pendingTask.applyUpdate (.tags ["Mixed"]) 0 with
  | .ok t => t
  | .error _ => pendingTask

/-- C10 counterexample: the repository `update` dispatch for the `tags`
key is a direct `_tags` assignment, so a task with the non-normalized tag
`"Mixed"` is reachable; hydrating its serialization lowercases the tag,
so the round-trip does not reproduce the task. -/
theorem c10_counterexample :
    pendingTask.applyUpdate (.tags ["Mixed"]) 0 = .ok c10bad ∧
    c10bad.tags = ["Mixed"] ∧
    Except.map (fun t => t.tags) (Task.fromJSON c10bad.toJSON "g" 0)
      = .ok ["mixed"] ∧
    Task.fromJSON c10bad.toJSON "g" 0 ≠ .ok c10bad := by
  refine ⟨rfl, rfl, rfl, by decide⟩

theorem c10_witness : Task.fromJSON wfTask.toJSON "task_0_x" 77 = .ok wfTask :=
  c10_roundtrip wfTask "task_0_x" 77
    { id_ne := by decide
      title_trim := by decide
      title_ne := by decide
      description_trim := by decide
      userId_ne := by decide
      assignedTo_ne := by decide
      priority_mem := by decide
      category_ne := by decide
      category_norm := by decide
      tags_norm := by decide
      estimated_nonneg := by
        intro n hn
        obtain rfl : (4 : Int) = n := by simpa [wfTask] using hn
        decide
      actual_nonneg := by
        intro n hn
        simp [wfTask] at hn
      status_mem := by decide }

/-! ### The task repository (class `TaskRepository`) -/

/-- One cache entry: the `{data, timestamp}` pair stored in the
repository's `Map`. -/
structure CacheEntry where
  data : Task
  timestamp : Nat
  deriving Repr, DecidableEq, Inhabited

/-- The persistence collaborator for tasks: the stored collection plus
observation counters for `load` and `save` calls. -/
structure TaskStorage where
  tasks : List TaskJSON
  loadCount : Nat := 0
  saveCount : Nat := 0
  deriving Repr, DecidableEq, Inhabited

/-- Repository state: storage plus the per-id `(value, timestamp)` cache
(`Map` modelled as an association list; `Map.set` replaces the key). -/
structure TaskRepository where
  storage : TaskStorage
  cache : List (String × CacheEntry) := []
  deriving Repr, DecidableEq, Inhabited

/-- `Map.get` on the cache association list. -/
def cacheFind (c : List (String × CacheEntry)) (id : String) :
    Option CacheEntry :=
  (c.find? fun p => p.1 == id).map fun p => p.2

/-- `this.storage.load('tasks', [])`: returns the collection, counts the
call. -/
def TaskRepository.loadAll (r : TaskRepository) :
    List TaskJSON × TaskRepository :=
  (r.storage.tasks,
   { r with storage := { r.storage with loadCount := r.storage.loadCount + 1 } })

/-- `this.storage.save('tasks', tasks)`: replaces the collection, counts
the call. -/
def TaskRepository.saveAll (r : TaskRepository) (ts : List TaskJSON) :
    TaskRepository :=
  { r with storage :=
      { r.storage with tasks := ts, saveCount := r.storage.saveCount + 1 } }

/-- `this._cache.set(id, {data, timestamp})`. -/
def TaskRepository.cachePut (r : TaskRepository) (id : String) (t : Task)
    (ts : Nat) : TaskRepository :=
  { r with cache := (id, ⟨t, ts⟩) :: r.cache.filter fun p => !(p.1 == id) }

/-- `this._cacheExpiry = 5 * 60 * 1000`. -/
def taskCacheExpiry : Nat := 5 * 60 * 1000

/-- `_getFromCache`: a missing entry yields `null`; an entry older than
the TTL is deleted and yields `null`; otherwise the cached data is
returned. -/
def TaskRepository.getFromCache (r : TaskRepository) (id : String)
    (now : Nat) : Option Task × TaskRepository :=
  match cacheFind r.cache id with
  | none => (none, r)
  | some e =>
    if now - e.timestamp > taskCacheExpiry then
      (none, { r with cache := r.cache.filter fun p => !(p.1 == id) })
    else (some e.data, r)

/-- `_hydrateTask`: `Task.fromJSON` on the stored record. -/
def hydrateTask (d : TaskJSON) (now : Nat) : Except Err Task :=
  Task.fromJSON d (generateId now) now

/-- `TaskRepository.findById`: cache first; on a miss, load the full
collection, locate the row, hydrate, cache and return it. -/
def TaskRepository.findById (r : TaskRepository) (id : String) (now : Nat) :
    TaskRepository × Except Err (Option Task) :=
  match r.getFromCache id now with
  | (some t, r1) => (r1, .ok (some t))
  | (none, r1) =>
    let (tasks, r2) := r1.loadAll
    match tasks.find? fun d => d.id == id with
    | none => (r2, .ok none)
    | some d =>
      match hydrateTask d now with
      | .error e => (r2, .error e)
      | .ok t => (r2.cachePut id t now, .ok (some t))

/-- `TaskRepository.create`: `_validateTask` (title and userId present),
id assignment when absent, duplicate-id check against the full collection,
append, save, cache. -/
def TaskRepository.create (r : TaskRepository) (task : Task) (now : Nat) :
    TaskRepository × Except Err Task :=
  if jsTrim task.title = "" then (r, .error .validation)
  else if task.userId = "" then (r, .error .validation)
  else
    let task1 := if task.id = "" then { task with id := generateId now } else task
    let (tasks, r1) := r.loadAll
    if tasks.any fun d => d.id == task1.id then (r1, .error .duplicate)
    else
      let r2 := r1.saveAll (tasks ++ [task1.toJSON])
      (r2.cachePut task1.id task1 now, .ok task1)

/-- `TaskRepository.update`: load, locate the row, hydrate, apply each
update through the dispatch table, bump `updatedAt`, write back, save,
refresh the cache. -/
def TaskRepository.update (r : TaskRepository) (id : String)
    (us : List FieldUpdate) (now : Nat) :
    TaskRepository × Except Err (Option Task) :=
  let (tasks, r1) := r.loadAll
  match tasks.findIdx? fun d => d.id == id with
  | none => (r1, .ok none)
  | some i =>
    match tasks[i]? with
    | none => (r1, .ok none)
    | some d =>
      match hydrateTask d now with
      | .error e => (r1, .error e)
      | .ok t0 =>
        match t0.applyUpdates us now with
        | .error e => (r1, .error e)
        | .ok t1 =>
          let t2 : Task := { t1 with updatedAt := now }
          let r2 := r1.saveAll (tasks.set i t2.toJSON)
          (r2.cachePut id t2 now, .ok (some t2))

/-! ### `findAll`: filters, sort, pagination -/

/-- Structural substring test (`String.prototype.includes`). -/
def startsWithChars : List Char → List Char → Bool
  | [], _ => true
  | _ :: _, [] => false
  | a :: as1, b :: bs => a == b && startsWithChars as1 bs

def hasSubstrAux (pat : List Char) : List Char → Bool
  | [] => pat.isEmpty
  | c :: cs => startsWithChars pat (c :: cs) || hasSubstrAux pat cs

def jsIncludes (s pat : String) : Bool := hasSubstrAux pat.data s.data

/-- `sortBy.includes('Date') || sortBy.includes('At')`: the comparator's
date branch. -/
def isDateKey (k : String) : Bool := jsIncludes k "Date" || jsIncludes k "At"

/-- The dynamic `a[sortBy]` access yields a JavaScript value: a string, a
number (booleans coerce to 0/1 under comparison, hydrated dates are their
millisecond value), `null`, or `undefvined` for unknown keys. -/
inductive JsVal where
  | str (s : String)
  | num (n : Int)
  | nullv
  | undefv
  deriving Repr, DecidableEq

/-- The field table behind `a[sortBy]` on a hydrated `Task`. -/
def taskField (t : Task) (k : String) : JsVal :=
  if k = "id" then .str t.id
  else if k = "title" then .str t.title
  else if k = "description" then .str t.description
  else if k = "userId" then .str t.userId
  else if k = "assignedTo" then .str t.assignedTo
  else if k = "priority" then .str t.priority
  else if k = "category" then .str t.category
  else if k = "status" then .str t.status
  else if k = "completed" then .num (if t.completed then 1 else 0)
  else if k = "createdAt" then .num t.createdAt
  else if k = "updatedAt" then .num t.updatedAt
  else if k = "dueDate" then
    match t.dueDate with | some d => .num d | none => .nullv
  else if k = "completedAt" then
    match t.completedAt with | some d => .num d | none => .nullv
  else if k = "estimatedHours" then
    match t.estimatedHours with | some n => .num n | none => .nullv
  else if k = "actualHours" then
    match t.actualHours with | some n => .num n | none => .nullv
  else .undefv

/-- `new Date(x)` coercion in the comparator's date branch: numbers pass
through, `null` becomes epoch 0 (hydrated date fields are already
numbers). -/
def toDateNum : JsVal → Int
  | .num n => n
  | .nullv => 0
  | .str _ => 0
  | .undefv => 0

/-- Numeric coercion for the generic `>`/`<` branch: `null` compares as 0. -/
def toNum : JsVal → Int
  | .num n => n
  | .nullv => 0
  | .str _ => 0
  | .undefv => 0

def cmpInt (a b : Int) : Int := if a > b then 1 else if a < b then -1 else 0

def cmpStr (a b : String) : Int :=
  if jsStrLt b a then 1 else if jsStrLt a b then -1 else 0

/-- The comparator body of `_sortTasks`: date-like keys compared as
timestamps, strings lowercased and compared lexicographically, otherwise
numeric comparison; `NaN`-producing `undefvined` operands make both
comparisons false, i.e. compare as equal. -/
def jsCompareVals (dateKey : Bool) (a b : JsVal) : Int :=
  if dateKey then
    match a, b with
    | .undefv, _ => 0
    | _, .undefv => 0
    | x, y => cmpInt (toDateNum x) (toDateNum y)
  else
    match a, b with
    | .str x, .str y => cmpStr (jsToLower x) (jsToLower y)
    | .undefv, _ => 0
    | _, .undefv => 0
    | x, y => cmpInt (toNum x) (toNum y)

/-- The full `_sortTasks` comparator, including the `desc` negation. -/
def cmpTasks (sortBy sortOrder : String) (a b : Task) : Int :=
  let comparison := jsCompareVals (isDateKey sortBy)
      (taskField a sortBy) (taskField b sortBy)
  if sortOrder = "desc" then -comparison else comparison

/-- Stable insertion of `x` after every earlier element that does not
compare strictly greater (models the stability of `Array.prototype.sort`). -/
def insertCmp (cmp : Task → Task → Int) (x : Task) : List Task → List Task
  | [] => [x]
  | y :: ys => if cmp x y < 0 then x :: y :: ys else y :: insertCmp cmp x ys

/-- `_sortTasks` as a stable comparator sort. -/
def sortTasks (ts : List Task) (sortBy sortOrder : String) : List Task :=
  ts.foldl (fun acc x => insertCmp (cmpTasks sortBy sortOrder) x acc) []

/-- The recognized `findAll` options.  `Option` entries model absent
(`undefvined`) values; the string filters are additionally skipped by the
source's truthiness tests when the supplied value is the empty string. -/
structure FindOptions where
  userId : Option String := none
  completed : Option Bool := none
  priority : Option String := none
  category : Option String := none
  assignedTo : Option String := none
  sortBy : Option String := none
  sortOrder : Option String := none
  limit : Option Nat := none
  offset : Option Nat := none
  deriving Repr, Inhabited

/-- The `if (options.x)` truthiness guard on a string option. -/
def truthyStr (o : Option String) : Option String :=
  match o with
  | some "" => none
  | o => o

/-- `TaskRepository.findAll`: load and hydrate everything, apply the
AND-combined equality filters, sort when `sortBy` is truthy, then the
`limit`/`offset` slice (entered only when either is truthy, i.e.
non-zero). -/
def TaskRepository.findAll (r : TaskRepository) (o : FindOptions)
    (now : Nat) : TaskRepository × Except Err (List Task) :=
  let (tasks, r1) := r.loadAll
  match tasks.mapM fun d => hydrateTask d now with
  | .error e => (r1, .error e)
  | .ok hydrated =>
    let result := match truthyStr o.userId with
      | some uid => hydrated.filter fun t => t.userId == uid
      | none => hydrated
    let result := match o.completed with
      | some c => result.filter fun t => t.completed == c
      | none => result
    let result := match truthyStr o.priority with
      | some p => result.filter fun t => t.priority == p
      | none => result
    let result := match truthyStr o.category with
      | some c => result.filter fun t => t.category == c
      | none => result
    let result := match truthyStr o.assignedTo with
      | some a => result.filter fun t => t.assignedTo == a
      | none => result
    let result := match truthyStr o.sortBy with
      | some k => sortTasks result k (o.sortOrder.getD "asc")
      | none => result
    let doSlice : Bool :=
      (match o.limit with | some l => l != 0 | none => false) ||
      (match o.offset with | some v => v != 0 | none => false)
    let result := if doSlice then
        let off := match o.offset with | some v => v | none => 0
        let lim := match o.limit with
          | some l => if l = 0 then result.length else l
          | none => result.length
        (result.drop off).take lim
      else result
    (r1, .ok result)

/-! ### `getStatistics` -/

/-- `stats.byCategory[category] = (stats.byCategory[category] || 0) + 1`
on an association-list model of the plain object. -/
def bumpCat : List (String × Nat) → String → List (String × Nat)
  | [], k => [(k, 1)]
  | p :: ps, k => if p.1 = k then (p.1, p.2 + 1) :: ps else p :: bumpCat ps k

/-- Reading a count back out of the `byCategory` object (0 when absent). -/
def catCount : List (String × Nat) → String → Nat
  | [], _ => 0
  | p :: ps, k => if p.1 = k then p.2 else catCount ps k

/-- `task.category || 'uncategorized'`. -/
def catKey (t : Task) : String :=
  if t.category = "" then "uncategorized" else t.category

/-- The statistics record: `byPriority` carries exactly the keys `high`,
`medium` and `low` (the source enumerates only those three). -/
structure Stats where
  total : Nat
  completed : Nat
  pending : Nat
  overdue : Nat
  byPriorityHigh : Nat
  byPriorityMedium : Nat
  byPriorityLow : Nat
  byCategory : List (String × Nat)
  deriving Repr, DecidableEq, Inhabited

/-- The aggregation body of `TaskRepository.getStatistics` over an
already-hydrated (and optionally user-scoped) task list. -/
def taskStatistics (ts : List Task) (now : Nat) : Stats :=
  { total := ts.length
    completed := (ts.filter fun t => t.completed).length
    pending := (ts.filter fun t => !t.completed).length
    overdue := (ts.filter fun t => !t.completed &&
        (match t.dueDate with | some d => decide (d < now) | none => false)).length
    byPriorityHigh := (ts.filter fun t => t.priority == "high").length
    byPriorityMedium := (ts.filter fun t => t.priority == "medium").length
    byPriorityLow := (ts.filter fun t => t.priority == "low").length
    byCategory := ts.foldl (fun m t => bumpCat m (catKey t)) [] }

/-- `TaskRepository.getStatistics(userId = null)`: scope through
`findByUserId` (a `findAll({userId})` composition) when a truthy user id
is supplied, else `findAll()`. -/
def TaskRepository.getStatistics (r : TaskRepository)
    (userId : Option String) (now : Nat) :
    TaskRepository × Except Err Stats :=
  match TaskRepository.findAll r { userId := truthyStr userId } now with
  | (r1, .error e) => (r1, .error e)
  | (r1, .ok ts) => (r1, .ok (taskStatistics ts now))

/-! ### The user repository (class `UserRepository`)

The `User` entity class itself is not among the given sources; when it is
absent the repository's `_hydrateUser` falls back to returning the plain
record, which is what this embedding does.  Only the fields the
repository code itself touches are modelled. -/

/-- A persisted user record (`id`, uniqueness keys; remaining
identity/contact fields play no role in the repository logic). -/
structure UserJSON where
  id : String
  username : String
  email : String
  deriving Repr, DecidableEq, Inhabited

structure UserCacheEntry where
  data : UserJSON
  timestamp : Nat
  deriving Repr, DecidableEq, Inhabited

structure UserStorage where
  users : List UserJSON
  loadCount : Nat := 0
  saveCount : Nat := 0
  deriving Repr, DecidableEq, Inhabited

structure UserRepository where
  storage : UserStorage
  cache : List (String × UserCacheEntry) := []
  deriving Repr, DecidableEq, Inhabited

def userCacheFind (c : List (String × UserCacheEntry)) (id : String) :
    Option UserCacheEntry :=
  (c.find? fun p => p.1 == id).map fun p => p.2

def UserRepository.loadAll (r : UserRepository) :
    List UserJSON × UserRepository :=
  (r.storage.users,
   { r with storage := { r.storage with loadCount := r.storage.loadCount + 1 } })

def UserRepository.saveAll (r : UserRepository) (us : List UserJSON) :
    UserRepository :=
  { r with storage :=
      { r.storage with users := us, saveCount := r.storage.saveCount + 1 } }

def UserRepository.cachePut (r : UserRepository) (id : String) (u : UserJSON)
    (ts : Nat) : UserRepository :=
  { r with cache := (id, ⟨u, ts⟩) :: r.cache.filter fun p => !(p.1 == id) }

/-- `this._cacheExpiry = 10 * 60 * 1000`. -/
def userCacheExpiry : Nat := 10 * 60 * 1000

/-- `UserRepository._getFromCache` (same logic as for tasks, 10-minute
TTL). -/
def UserRepository.getFromCache (r : UserRepository) (id : String)
    (now : Nat) : Option UserJSON × UserRepository :=
  match userCacheFind r.cache id with
  | none => (none, r)
  | some e =>
    if now - e.timestamp > userCacheExpiry then
      (none, { r with cache := r.cache.filter fun p => !(p.1 == id) })
    else (some e.data, r)

/-- `UserRepository.findById`. -/
def UserRepository.findById (r : UserRepository) (id : String) (now : Nat) :
    UserRepository × Except Err (Option UserJSON) :=
  match r.getFromCache id now with
  | (some u, r1) => (r1, .ok (some u))
  | (none, r1) =>
    let (users, r2) := r1.loadAll
    match users.find? fun u => u.id == id with
    | none => (r2, .ok none)
    | some u => (r2.cachePut id u now, .ok (some u))

/-- The email regex of `_validateUser`
(`/^[^\s@]+@[^\s@]+\.[^\s@]+$/`): exactly one `@`, no whitespace,
non-empty local part, and a `.` strictly inside the non-empty domain. -/
def emailOk (s : String) : Bool :=
  let cs := s.data
  (cs.count '@' == 1) &&
  !(cs.any fun c => c.isWhitespace) &&
  (let localPart := cs.takeWhile fun c => !(c == '@')
   let domain := (cs.dropWhile fun c => !(c == '@')).drop 1
   !localPart.isEmpty && !domain.isEmpty &&
     ((domain.drop 1).dropLast.contains '.'))

/-- `'user_' + Date.now() + '_' + randomSuffix`, random suffix abstracted. -/
def generateUserId (now : Nat) : String := "user_" ++ toString now ++ "_x"

/-- `UserRepository.create`: `_validateUser` (username, email, email
format), id assignment when absent, duplicate *username* and *email*
checks (note: no duplicate-id check), append, save, cache. -/
def UserRepository.create (r : UserRepository) (user : UserJSON) (now : Nat) :
    UserRepository × Except Err UserJSON :=
  if jsTrim user.username = "" then (r, .error .validation)
  else if jsTrim user.email = "" then (r, .error .validation)
  else if !emailOk user.email then (r, .error .validation)
  else
    let user1 := if user.id = "" then { user with id := generateUserId now } else user
    let (users, r1) := r.loadAll
    if users.any fun u => u.username == user1.username then (r1, .error .duplicate)
    else if users.any fun u => u.email == user1.email then (r1, .error .duplicate)
    else
      let r2 := r1.saveAll (users ++ [user1])
      (r2.cachePut user1.id user1 now, .ok user1)

/-- An update entry for `UserRepository.update`; with the plain-record
hydration fallback, every key dispatches to the direct assignment branch. -/
inductive UserFieldUpdate where
  | username (v : String)
  | email (v : String)
  deriving Repr, DecidableEq

def applyUserUpdate (u : UserJSON) (f : UserFieldUpdate) : UserJSON :=
  match f with
  | .username v => { u with username := v }
  | .email v => { u with email := v }

/-- `UserRepository.update`: load, locate, apply the updates, write back,
save, refresh the cache. -/
def UserRepository.update (r : UserRepository) (id : String)
    (fs : List UserFieldUpdate) (now : Nat) :
    UserRepository × Except Err (Option UserJSON) :=
  let (users, r1) := r.loadAll
  match users.findIdx? fun u => u.id == id with
  | none => (r1, .ok none)
  | some i =>
    match users[i]? with
    | none => (r1, .ok none)
    | some u =>
      let u2 := fs.foldl applyUserUpdate u
      let r2 := r1.saveAll (users.set i u2)
      (r2.cachePut id u2 now, .ok (some u2))

/-! ### The controller authorization gate (class `TaskController`) -/

/-- Modelled from the spec: the `User` entity class is not among the given
sources; `canModifyTask` reads only the current user's `id` and `isAdmin`
("holds an administrator role"). -/
structure UserC where
  id : String
  isAdmin : Bool
  deriving Repr, DecidableEq, Inhabited

/-- `TaskController.canModifyTask`: false without a task or current user;
owner or assignee may modify; admins may modify any task. -/
def canModifyTask (currentUser : Option UserC) (task : Option Task) : Bool :=
  match task, currentUser with
  | none, _ => false
  | _, none => false
  | some t, some u =>
    if t.userId == u.id || t.assignedTo == u.id then true
    else if u.isAdmin then true
    else false

/-- `TaskService.getTaskById` (src/src/app.js): a plain delegation,
`return await this.taskRepository.findById(taskId)`. -/
def serviceGetTaskById (r : TaskRepository) (taskId : String) (now : Nat) :
    TaskRepository × Except Err (Option Task) :=
  r.findById taskId now

/-- `TaskService.updateTask` (src/src/app.js): delegates to
`this.taskRepository.update(taskId, updates)` and returns its result;
on a non-null result it notifies the `taskUpdated` listeners (the
notification loop catches per-listener failures and touches no repository
state, so it contributes nothing to the modelled state), and a thrown
error is re-raised after an `error` event — the `Except` propagation. -/
def serviceUpdateTask (r : TaskRepository) (taskId : String)
    (us : List FieldUpdate) (now : Nat) :
    TaskRepository × Except Err (Option Task) :=
  r.update taskId us now

/-- `TaskController.updateTask`: `validateParams` on `taskId`, fetch the
task through the service, apply `canModifyTask`, throw the permission
error before any service mutation on denial, else delegate to the
service.  (`handleError` logs, emits and re-raises; re-raising is the
`Except` propagation.) -/
def controllerUpdateTask (currentUser : Option UserC) (r : TaskRepository)
    (taskId : String) (us : List FieldUpdate) (now : Nat) :
    TaskRepository × Except Err (Option Task) :=
  if taskId = "" then (r, .error .validation)
  else
    match serviceGetTaskById r taskId now with
    | (r1, .error e) => (r1, .error e)
    | (r1, .ok task) =>
      if !canModifyTask currentUser task then (r1, .error .permission)
      else serviceUpdateTask r1 taskId us now

/-! ### Cache behaviour -/

theorem getFromCache_storage (r : TaskRepository) (id : String) (now : Nat) :
    ((r.getFromCache id now).2).storage = r.storage := by
  rw [TaskRepository.getFromCache]
  cases cacheFind r.cache id with
  | none => rfl
  | some e =>
    dsimp only
    split <;> rfl

/-- C3: an entry older than the TTL (5 min for tasks, 10 min for users) is
treated as absent and evicted by `_getFromCache`, and the subsequent
`findById` reloads the full collection from persistence (one more load
call), whatever the stored records contain. -/
theorem c3_ttl_expiry :
    (∀ (r : TaskRepository) (id : String) (e : CacheEntry) (now : Nat),
        cacheFind r.cache id = some e →
        now - e.timestamp > taskCacheExpiry →
        r.getFromCache id now =
          (none, { r with cache := r.cache.filter fun p => !(p.1 == id) }) ∧
        ((r.findById id now).1).storage.loadCount
          = r.storage.loadCount + 1) ∧
    (∀ (r : UserRepository) (id : String) (e : UserCacheEntry) (now : Nat),
        userCacheFind r.cache id = some e →
        now - e.timestamp > userCacheExpiry →
        r.getFromCache id now =
          (none, { r with cache := r.cache.filter fun p => !(p.1 == id) }) ∧
        ((r.findById id now).1).storage.loadCount
          = r.storage.loadCount + 1) := by
  constructor
  · intro r id e now hfind hexp
    have hg : r.getFromCache id now =
        (none, { r with cache := r.cache.filter fun p => !(p.1 == id) }) := by
      rw [TaskRepository.getFromCache, hfind]
      dsimp only
      rw [if_pos hexp]
    refine ⟨hg, ?_⟩
    rw [TaskRepository.findById, hg]
    dsimp only [TaskRepository.loadAll]
    split
    · rfl
    · split <;> rfl
  · intro r id e now hfind hexp
    have hg : r.getFromCache id now =
        (none, { r with cache := r.cache.filter fun p => !(p.1 == id) }) := by
      rw [UserRepository.getFromCache, hfind]
      dsimp only
      rw [if_pos hexp]
    refine ⟨hg, ?_⟩
    rw [UserRepository.findById, hg]
    dsimp only [UserRepository.loadAll]
    split <;> rfl

theorem cacheFind_cachePut (r : TaskRepository) (id : String) (t : Task)
    (ts : Nat) : cacheFind (r.cachePut id t ts).cache id = some ⟨t, ts⟩ := by
  simp [TaskRepository.cachePut, cacheFind]

theorem userCacheFind_cachePut (r : UserRepository) (id : String)
    (u : UserJSON) (ts : Nat) :
    userCacheFind (r.cachePut id u ts).cache id = some ⟨u, ts⟩ := by
  simp [UserRepository.cachePut, userCacheFind]

theorem findById_cache_hit {r : TaskRepository} {id : String} {t : Task}
    {ts now : Nat} (hc : cacheFind r.cache id = some ⟨t, ts⟩)
    (hle : now - ts ≤ taskCacheExpiry) :
    r.findById id now = (r, .ok (some t)) := by
  rw [TaskRepository.findById, TaskRepository.getFromCache, hc]
  dsimp only
  rw [if_neg (by omega)]

theorem userFindById_cache_hit {r : UserRepository} {id : String}
    {u : UserJSON} {ts now : Nat}
    (hc : userCacheFind r.cache id = some ⟨u, ts⟩)
    (hle : now - ts ≤ userCacheExpiry) :
    r.findById id now = (r, .ok (some u)) := by
  rw [UserRepository.findById, UserRepository.getFromCache, hc]
  dsimp only
  rw [if_neg (by omega)]

theorem create_ok_cached {r : TaskRepository} {task : Task} {now : Nat}
    {r2 : TaskRepository} {t : Task} (h : r.create task now = (r2, .ok t)) :
    cacheFind r2.cache t.id = some ⟨t, now⟩ := by
  rw [TaskRepository.create] at h
  split at h
  · injection h with h1 h2; exact Except.noConfusion h2
  · split at h
    · injection h with h1 h2; exact Except.noConfusion h2
    · dsimp only at h
      split at h <;>
      · split at h
        · injection h with h1 h2; exact Except.noConfusion h2
        · injection h with h1 h2
          injection h2 with h2
          subst h2
          subst h1
          exact cacheFind_cachePut _ _ _ _

theorem update_ok_cached {r : TaskRepository} {id : String}
    {us : List FieldUpdate} {now : Nat} {r2 : TaskRepository} {t : Task}
    (h : r.update id us now = (r2, .ok (some t))) :
    cacheFind r2.cache id = some ⟨t, now⟩ := by
  rw [TaskRepository.update] at h
  dsimp only at h
  split at h
  · injection h with h1 h2
    injection h2 with h2
    exact Option.noConfusion h2
  · split at h
    · injection h with h1 h2
      injection h2 with h2
      exact Option.noConfusion h2
    · split at h
      · injection h with h1 h2; exact Except.noConfusion h2
      · split at h
        · injection h with h1 h2; exact Except.noConfusion h2
        · injection h with h1 h2
          injection h2 with h2
          injection h2 with h2
          subst h2
          subst h1
          exact cacheFind_cachePut _ _ _ _

theorem userCreate_ok_cached {r : UserRepository} {user : UserJSON}
    {now : Nat} {r2 : UserRepository} {u : UserJSON}
    (h : r.create user now = (r2, .ok u)) :
    userCacheFind r2.cache u.id = some ⟨u, now⟩ := by
  rw [UserRepository.create] at h
  split at h
  · injection h with h1 h2; exact Except.noConfusion h2
  · split at h
    · injection h with h1 h2; exact Except.noConfusion h2
    · split at h
      · injection h with h1 h2; exact Except.noConfusion h2
      · dsimp only at h
        split at h <;>
        · split at h
          · injection h with h1 h2; exact Except.noConfusion h2
          · split at h
            · injection h with h1 h2; exact Except.noConfusion h2
            · injection h with h1 h2
              injection h2 with h2
              subst h2
              subst h1
              exact userCacheFind_cachePut _ _ _ _

theorem userUpdate_ok_cached {r : UserRepository} {id : String}
    {fs : List UserFieldUpdate} {now : Nat} {r2 : UserRepository}
    {u : UserJSON} (h : r.update id fs now = (r2, .ok (some u))) :
    userCacheFind r2.cache id = some ⟨u, now⟩ := by
  rw [UserRepository.update] at h
  dsimp only at h
  split at h
  · injection h with h1 h2
    injection h2 with h2
    exact Option.noConfusion h2
  · split at h
    · injection h with h1 h2
      injection h2 with h2
      exact Option.noConfusion h2
    · injection h with h1 h2
      injection h2 with h2
      injection h2 with h2
      subst h2
      subst h1
      exact userCacheFind_cachePut _ _ _ _

/-- C2: a `findById` issued while the cache entry written by a successful
`create` or `update` is younger than the TTL returns that entity straight
from the cache: the repository state (including the load counter and the
persisted collection) is returned unchanged. -/
theorem c2_cache_coherency :
    (∀ (r : TaskRepository) (task : Task) (now now2 : Nat)
        (r2 : TaskRepository) (t : Task),
        r.create task now = (r2, .ok t) → now2 - now ≤ taskCacheExpiry →
        r2.findById t.id now2 = (r2, .ok (some t))) ∧
    (∀ (r : TaskRepository) (id : String) (us : List FieldUpdate)
        (now now2 : Nat) (r2 : TaskRepository) (t : Task),
        r.update id us now = (r2, .ok (some t)) →
        now2 - now ≤ taskCacheExpiry →
        r2.findById id now2 = (r2, .ok (some t))) ∧
    (∀ (r : UserRepository) (user : UserJSON) (now now2 : Nat)
        (r2 : UserRepository) (u : UserJSON),
        r.create user now = (r2, .ok u) → now2 - now ≤ userCacheExpiry →
        r2.findById u.id now2 = (r2, .ok (some u))) ∧
    (∀ (r : UserRepository) (id : String) (fs : List UserFieldUpdate)
        (now now2 : Nat) (r2 : UserRepository) (u : UserJSON),
        r.update id fs now = (r2, .ok (some u)) →
        now2 - now ≤ userCacheExpiry →
        r2.findById id now2 = (r2, .ok (some u))) := by
  refine ⟨fun r task now now2 r2 t h hle =>
            findById_cache_hit (create_ok_cached h) hle,
          fun r id us now now2 r2 t h hle =>
            findById_cache_hit (update_ok_cached h) hle,
          fun r user now now2 r2 u h hle =>
            userFindById_cache_hit (userCreate_ok_cached h) hle,
          fun r id fs now now2 r2 u h hle =>
            userFindById_cache_hit (userUpdate_ok_cached h) hle⟩

def c2repo : TaskRepository :=
  { storage := { tasks := [], loadCount := 0, saveCount := 0 }, cache := [] }

theorem c2_witness :
    ((c2repo.create pendingTask 0).1).findById pendingTask.id 1000
      = ((c2repo.create pendingTask 0).1, .ok (some pendingTask)) :=
  c2_cache_coherency.1 c2repo pendingTask 0 1000
    (c2repo.create pendingTask 0).1 pendingTask rfl (by decide)

def c3repo : TaskRepository :=
  { storage := { tasks := [], loadCount := 0, saveCount := 0 },
    cache := [("a1", ⟨pendingTask, 0⟩)] }

theorem c3_witness :
    c3repo.getFromCache "a1" 300001 =
      (none, { c3repo with
        cache := c3repo.cache.filter fun p => !(p.1 == "a1") }) ∧
    ((c3repo.findById "a1" 300001).1).storage.loadCount
      = c3repo.storage.loadCount + 1 :=
  c3_ttl_expiry.1 c3repo "a1" ⟨pendingTask, 0⟩ 300001 rfl (by decide)

/-! ### The controller permission gate -/

theorem findById_saves (r : TaskRepository) (id : String) (now : Nat) :
    ((r.findById id now).1).storage.saveCount = r.storage.saveCount ∧
    ((r.findById id now).1).storage.tasks = r.storage.tasks := by
  have hst := getFromCache_storage r id now
  rw [TaskRepository.findById]
  rcases hg : r.getFromCache id now with ⟨ot, r1⟩
  rw [hg] at hst
  cases ot with
  | some t =>
    exact ⟨congrArg TaskStorage.saveCount hst, congrArg TaskStorage.tasks hst⟩
  | none =>
    dsimp only [TaskRepository.loadAll]
    have h1 : r1.storage.saveCount = r.storage.saveCount :=
      congrArg TaskStorage.saveCount hst
    have h2 : r1.storage.tasks = r.storage.tasks :=
      congrArg TaskStorage.tasks hst
    split
    · exact ⟨h1, h2⟩
    · split
      · exact ⟨h1, h2⟩
      · exact ⟨h1, h2⟩

/-- C4: when the acting user is neither the task's owner nor its assignee
nor an administrator, the controller's `updateTask` throws the permission
error and the repository performs no save: the persisted collection and
the save-call counter are exactly as before. -/
theorem c4_permission_gate :
    ∀ (u : UserC) (r : TaskRepository) (taskId : String)
      (us : List FieldUpdate) (now : Nat) (t : Task),
      taskId ≠ "" →
      (r.findById taskId now).2 = .ok (some t) →
      t.userId ≠ u.id → t.assignedTo ≠ u.id → u.isAdmin = false →
      (controllerUpdateTask (some u) r taskId us now).2 = .error .permission ∧
      ((controllerUpdateTask (some u) r taskId us now).1).storage.saveCount
        = r.storage.saveCount ∧
      ((controllerUpdateTask (some u) r taskId us now).1).storage.tasks
        = r.storage.tasks := by
  intro u r taskId us now t hne hfind hown hassign hadmin
  have hsaves := findById_saves r taskId now
  have hcm : canModifyTask (some u) (some t) = false := by
    have h1 : (t.userId == u.id) = false := beq_eq_false_iff_ne.mpr hown
    have h2 : (t.assignedTo == u.id) = false := beq_eq_false_iff_ne.mpr hassign
    simp [canModifyTask, h1, h2, hadmin]
  rw [controllerUpdateTask, if_neg hne]
  unfold serviceGetTaskById
  rcases hg : r.findById taskId now with ⟨r1, res⟩
  rw [hg] at hfind hsaves
  obtain rfl : res = .ok (some t) := hfind
  refine ⟨?_, ?_, ?_⟩
  · simp [hcm]
  · simp only [hcm]
    simpa using hsaves.1
  · simp only [hcm]
    simpa using hsaves.2

/-- A stored record whose owner and assignee are both `owner1`. -/
def c4rec : TaskJSON :=
  { id := "t9", title := "secret", description := "", userId := "owner1",
    assignedTo := "owner1", priority := "medium", category := "general",
    tags := [], completed := false, status := "pending", dueDate := none,
    estimatedHours := none, actualHours := none, notes := [],
    attachments := [], dependencies := [], createdAt := 0, updatedAt := 0,
    completedAt := none }

def c4repo : TaskRepository :=
  { storage := { tasks := [c4rec], loadCount := 0, saveCount := 0 },
    cache := [] }

def c4task : Task :=
  match (c4repo.findById "t9" 0).2 with
  | .ok (some t) => t
  | _ => default

theorem c4_witness :
    (controllerUpdateTask (some ⟨"mallory", false⟩) c4repo "t9"
        [.title "hacked"] 0).2 = .error .permission ∧
    ((controllerUpdateTask (some ⟨"mallory", false⟩) c4repo "t9"
        [.title "hacked"] 0).1).storage.saveCount
      = c4repo.storage.saveCount ∧
    ((controllerUpdateTask (some ⟨"mallory", false⟩) c4repo "t9"
        [.title "hacked"] 0).1).storage.tasks = c4repo.storage.tasks :=
  c4_permission_gate ⟨"mallory", false⟩ c4repo "t9" [.title "hacked"] 0
    c4task (by decide) rfl (by decide) (by decide) rfl

/-! ### Duplicate-id create -/

/-- C5 (amended): for the **tasks** repository, `create` with an entity
whose explicit id already occurs in the full collection fails with the
duplicate error without saving: the persisted rows and the save counter
are unchanged.  (The unrestricted claim over every persisted collection is
false: the users repository checks only username/email uniqueness — see
the counterexample.) -/
theorem c5_duplicate_create_amended :
    ∀ (r : TaskRepository) (task : Task) (now : Nat),
      jsTrim task.title ≠ "" → task.userId ≠ "" → task.id ≠ "" →
      (r.storage.tasks.any fun d => d.id == task.id) = true →
      (r.create task now).2 = .error .duplicate ∧
      ((r.create task now).1).storage.tasks = r.storage.tasks ∧
      ((r.create task now).1).storage.saveCount = r.storage.saveCount := by
  intro r task now ht hu hid hdup
  rw [TaskRepository.create, if_neg ht, if_neg hu, if_neg hid]
  dsimp only [TaskRepository.loadAll]
  rw [if_pos hdup]
  exact ⟨rfl, rfl, rfl⟩

def c5taskRepo : TaskRepository :=
  { storage := { tasks := [pendingTask.toJSON], loadCount := 0, saveCount := 0 },
    cache := [] }

theorem c5_witness :
    (c5taskRepo.create pendingTask 9).2 = .error .duplicate ∧
    ((c5taskRepo.create pendingTask 9).1).storage.tasks
      = c5taskRepo.storage.tasks ∧
    ((c5taskRepo.create pendingTask 9).1).storage.saveCount
      = c5taskRepo.storage.saveCount :=
  c5_duplicate_create_amended c5taskRepo pendingTask 9
    (by decide) (by decide) (by decide) (by decide)

def c5userRepo : UserRepository :=
  { storage :=
      { users := [{ id := "u1", username := "alice", email := "alice@example.com" }],
        loadCount := 0, saveCount := 0 },
    cache := [] }

def c5dupUser : UserJSON :=
  { id := "u1", username := "bob", email := "bob@example.com" }

/-- C5 counterexample: the users repository accepts an entity whose
explicit id `u1` already exists (its username and email are fresh): the
create succeeds, the collection grows, and two rows now share the id. -/
theorem c5_counterexample :
    (c5userRepo.create c5dupUser 0).2 = .ok c5dupUser ∧
    ((c5userRepo.create c5dupUser 0).1).storage.users =
      [{ id := "u1", username := "alice", email := "alice@example.com" },
       c5dupUser] ∧
    (((c5userRepo.create c5dupUser 0).1).storage.users.filter
        fun u => u.id == "u1").length = 2 := by
  refine ⟨rfl, rfl, rfl⟩

/-! ### Sorting by priority -/

theorem taskField_priority (t : Task) :
    taskField t "priority" = .str t.priority := rfl

theorem isDateKey_priority : isDateKey "priority" = false := by decide

theorem jsCompareVals_str (x y : String) :
    jsCompareVals false (.str x) (.str y) =
      cmpStr (jsToLower x) (jsToLower y) := rfl

theorem cmpTasks_priority_desc {a b : Task} {pa pb : String}
    (ha : a.priority = pa) (hb : b.priority = pb) :
    cmpTasks "priority" "desc" a b =
      -(cmpStr (jsToLower pa) (jsToLower pb)) := by
  rw [cmpTasks, isDateKey_priority, taskField_priority, taskField_priority,
    ha, hb]
  rw [jsCompareVals_str, if_pos rfl]

/-- C8: `findAll({sortBy: 'priority', sortOrder: 'desc'})` on a collection
hydrating to three tasks with priorities low, urgent, medium returns them
ordered urgent, medium, low (the comparator lowercases and compares the
priority strings lexicographically, which on these three values coincides
with severity order). -/
theorem c8_sort_priority_desc :
    ∀ (r : TaskRepository) (now : Nat) (t1 t2 t3 : Task),
      (r.storage.tasks.mapM fun d => hydrateTask d now) = .ok [t1, t2, t3] →
      t1.priority = "low" → t2.priority = "urgent" → t3.priority = "medium" →
      (r.findAll { sortBy := some "priority", sortOrder := some "desc" } now).2
        = .ok [t2, t3, t1] := by
  intro r now t1 t2 t3 hm h1 h2 h3
  have c21 : cmpTasks "priority" "desc" t2 t1 = -1 := by
    rw [cmpTasks_priority_desc h2 h1]; decide
  have c32 : cmpTasks "priority" "desc" t3 t2 = 1 := by
    rw [cmpTasks_priority_desc h3 h2]; decide
  have c31 : cmpTasks "priority" "desc" t3 t1 = -1 := by
    rw [cmpTasks_priority_desc h3 h1]; decide
  have hsort : sortTasks [t1, t2, t3] "priority" "desc" = [t2, t3, t1] := by
    simp only [sortTasks, List.foldl, insertCmp, c21, c32, c31]
    norm_num
  rw [TaskRepository.findAll]
  dsimp only [TaskRepository.loadAll]
  rw [hm]
  simp [show truthyStr (some "priority") = some "priority" from by decide,
    truthyStr, Option.getD, hsort]

def c8rec1 : TaskJSON :=
  { id := "s1", title := "one", description := "", userId := "u1",
    assignedTo := "u1", priority := "low", category := "general",
    tags := [], completed := false, status := "pending", dueDate := none,
    estimatedHours := none, actualHours := none, notes := [],
    attachments := [], dependencies := [], createdAt := 0, updatedAt := 0,
    completedAt := none }

def c8rec2 : TaskJSON := { c8rec1 with id := "s2", priority := "urgent" }

def c8rec3 : TaskJSON := { c8rec1 with id := "s3", priority := "medium" }

def c8repo : TaskRepository :=
  { storage := { tasks := [c8rec1, c8rec2, c8rec3],
                 loadCount := 0, saveCount := 0 }, cache := [] }

def c8t1 : Task :=
  match hydrateTask c8rec1 0 with | .ok t => t | .error _ => default

def c8t2 : Task :=
  match hydrateTask c8rec2 0 with | .ok t => t | .error _ => default

def c8t3 : Task :=
  match hydrateTask c8rec3 0 with | .ok t => t | .error _ => default

theorem c8_witness :
    (c8repo.findAll { sortBy := some "priority", sortOrder := some "desc" } 0).2
      = .ok [c8t2, c8t3, c8t1] :=
  c8_sort_priority_desc c8repo 0 c8t1 c8t2 c8t3 rfl rfl rfl rfl

/-! ### Statistics: the `byPriority` buckets omit `urgent` -/

theorem catCount_bumpCat (m : List (String × Nat)) (k : String) :
    catCount (bumpCat m k) k = catCount m k + 1 := by
  induction m with
  | nil => simp [bumpCat, catCount]
  | cons p ps ih =>
    by_cases hk : p.1 = k
    · simp [bumpCat, catCount, hk]
    · simp [bumpCat, catCount, hk, ih]

/-- C9: the `byPriority` record of `getStatistics` carries exactly the
keys `high`, `medium` and `low` (they are the only fields of `Stats`);
appending a task of priority `urgent` to any (already scoped) collection
bumps `total`, bumps `completed` or `pending` according to its completion
flag, bumps its `byCategory` bucket, and leaves every `byPriority` count
unchanged. -/
theorem c9_urgent_not_counted :
    ∀ (ts : List Task) (u : Task) (now : Nat), u.priority = "urgent" →
      (taskStatistics (ts ++ [u]) now).total
        = (taskStatistics ts now).total + 1 ∧
      (taskStatistics (ts ++ [u]) now).completed
        = (taskStatistics ts now).completed + (if u.completed then 1 else 0) ∧
      (taskStatistics (ts ++ [u]) now).pending
        = (taskStatistics ts now).pending + (if u.completed then 0 else 1) ∧
      (taskStatistics (ts ++ [u]) now).byPriorityHigh
        = (taskStatistics ts now).byPriorityHigh ∧
      (taskStatistics (ts ++ [u]) now).byPriorityMedium
        = (taskStatistics ts now).byPriorityMedium ∧
      (taskStatistics (ts ++ [u]) now).byPriorityLow
        = (taskStatistics ts now).byPriorityLow ∧
      catCount ((taskStatistics (ts ++ [u]) now).byCategory) (catKey u)
        = catCount ((taskStatistics ts now).byCategory) (catKey u) + 1 := by
  intro ts u now hp
  refine ⟨?_, ?_, ?_, ?_, ?_, ?_, ?_⟩
  · simp [taskStatistics]
  · cases hc : u.completed <;> simp [taskStatistics, List.filter_append, hc]
  · cases hc : u.completed <;> simp [taskStatistics, List.filter_append, hc]
  · simp [taskStatistics, List.filter_append, hp]
  · simp [taskStatistics, List.filter_append, hp]
  · simp [taskStatistics, List.filter_append, hp]
  · simp only [taskStatistics, List.foldl_append, List.foldl_cons,
      List.foldl_nil]
    exact catCount_bumpCat _ _

def c9urgent : Task := { pendingTask with id := "t9u", priority := "urgent" }

theorem c9_witness :
    (taskStatistics ([pendingTask] ++ [c9urgent]) 0).byPriorityMedium
      = (taskStatistics [pendingTask] 0).byPriorityMedium ∧
    (taskStatistics ([pendingTask] ++ [c9urgent]) 0).total
      = (taskStatistics [pendingTask] 0).total + 1 :=
  ⟨(c9_urgent_not_counted [pendingTask] c9urgent 0 rfl).2.2.2.2.1,
   (c9_urgent_not_counted [pendingTask] c9urgent 0 rfl).1⟩

end Todo
